import Mathlib

/-!
Shallow embedding of the miniredis repository (Rust) in Lean 4.

The embedding follows the source files:
  src/error.rs     : MiniRedisError and its Display rendering (fmtError).
  src/kv_store.rs  : KVStore, a mutex-guarded HashMap<String, String>.
                     In this sequential embedding the mutex is always
                     acquirable (lock poisoning cannot arise without
                     panicking threads), so the store is modelled as the
                     finite map itself, i.e. a function String -> Option
                     String; get/set/del mirror HashMap get/insert/remove.
  src/server.rs    : parse_command (split_whitespace + to_uppercase),
                     handle_command (the dispatcher), handle_client (the
                     per-connection read/dispatch/write loop over the list
                     of lines delivered by read_line, with the zero-length
                     read modelled as the end of that list), and the accept
                     loop of Server::run (runIncoming).
  src/client.rs    : the per-iteration decision of Client::run on one line
                     returned by read_input (clientHandleInput).
-/

/-- The error enum of src/error.rs. -/
inductive MiniRedisError : Type
  | StoreLocked : MiniRedisError
  | InvalidCommand : String → MiniRedisError
  | InvalidArguments : List String → MiniRedisError
  | StreamClosed : MiniRedisError
  | StreamNotReadable : MiniRedisError
  | StreamNotWritable : MiniRedisError
  | StreamNotConnected : String → MiniRedisError
  | StreamNotFlushed : MiniRedisError
  | AddressNotBound : MiniRedisError
  deriving DecidableEq, Repr

/-- One character rendered as inside a Rust Debug string literal
(the escapes relevant to this code base: backslash, quote, and the
common control characters). -/
def escapeDebugChar (c : Char) : String :=
  if c = '\\' then "\\\\"
  else if c = '"' then "\\\""
  else if c = '\n' then "\\n"
  else if c = '\r' then "\\r"
  else if c = '\t' then "\\t"
  else String.mk [c]

/-- Rust Debug rendering of a Vec of Strings, as produced by the
format specifier used in error.rs for InvalidArguments. -/
def rustDebugList (xs : List String) : String :=
  "[" ++
    String.intercalate ", "
      (xs.map (fun s => "\"" ++ String.join (s.data.map escapeDebugChar) ++ "\"")) ++
  "]"

/-- Display for MiniRedisError, from src/error.rs (fmt). -/
def fmtError : MiniRedisError → String
  | MiniRedisError.StoreLocked =>
      "Could not access the key value store as it is locked."
  | MiniRedisError.InvalidCommand command =>
      "Invalid command: " ++ command ++ ". Run \x27miniredis --help\x27 for more information."
  | MiniRedisError.InvalidArguments arguments =>
      "Invalid arguments: " ++ rustDebugList arguments ++
        ". Run \x27miniredis --help\x27 for more information."
  | MiniRedisError.StreamClosed => "The stream is closed."
  | MiniRedisError.StreamNotReadable => "Could not read from the stream."
  | MiniRedisError.StreamNotWritable => "Could not write to the stream."
  | MiniRedisError.StreamNotConnected address =>
      "Could not connect to the stream at " ++ address ++ "."
  | MiniRedisError.AddressNotBound => "Could not bind to the address."
  | MiniRedisError.StreamNotFlushed => "Could not flush the stream."

/-- The key-value store of src/kv_store.rs: a HashMap<String, String>,
modelled extensionally as the map it denotes. -/
def KVStore : Type := String → Option String

/-- KVStore::new — HashMap::new(), the empty map. -/
def KVStore.new : KVStore := fun _ => none

/-- KVStore::get — store.get(key).cloned(); in the sequential embedding
the lock always succeeds, so the Result wrapper is dropped. -/
def KVStore.get (store : KVStore) (key : String) : Option String := store key

/-- KVStore::set — store.insert(key, value). -/
def KVStore.set (store : KVStore) (key value : String) : KVStore :=
  fun k => if k = key then some value else store k

/-- KVStore::del — store.remove(key); removing an absent key is a no-op. -/
def KVStore.del (store : KVStore) (key : String) : KVStore :=
  fun k => if k = key then none else store k

/-- Worker for splitWhitespace: cur holds the characters of the word in
progress, reversed. Mirrors the semantics of str::split_whitespace —
tokens are the maximal runs of non-whitespace characters. -/
def splitWsAux : List Char → List Char → List String
  | cur, [] =>
    match cur with
    | [] => []
    | _ => [String.mk cur.reverse]
  | cur, c :: cs =>
    if c.isWhitespace then
      match cur with
      | [] => splitWsAux [] cs
      | _ => String.mk cur.reverse :: splitWsAux [] cs
    else
      splitWsAux (c :: cur) cs

/-- line.split_whitespace() in parse_command: split on runs of whitespace,
producing the list of whitespace-free tokens in order. -/
def splitWhitespace (s : String) : List String := splitWsAux [] s.data

/-- str::to_uppercase on the first token: upper-case every character.
(Rust applies the full Unicode mapping; on the ASCII command names this
code deals in, that is Char.toUpper character by character.) -/
def toUppercase (s : String) : String := String.mk (s.data.map Char.toUpper)

/-- Server::parse_command: the first whitespace token, upper-cased, is the
command; the remaining tokens, unchanged and in order, are the arguments;
no token at all gives None. -/
def parseCommand (line : String) : Option (String × List String) :=
  match splitWhitespace line with
  | [] => none
  | command :: args => some (toUppercase command, args)

/-- Server::handle_command: arity check per command, then dispatch to the
store. Result is the response (or error) together with the store after the
call (the Rust code mutates the shared store in place). The StoreLocked
propagation branches of the source are dead in this sequential embedding
because the lock always succeeds. -/
def handleCommand (command : String) (args : List String) (store : KVStore) :
    Except MiniRedisError String × KVStore :=
  let key : Option String := args.get? 0
  let value : Option String := args.get? 1
  let argsLen := args.length
  match command with
  | "GET" =>
    if argsLen ≠ 1 then (Except.error (MiniRedisError.InvalidArguments args), store)
    else
      match key with
      | some k =>
        match store.get k with
        | some v => (Except.ok v, store)
        | none => (Except.ok "nil", store)
      | none => (Except.error (MiniRedisError.InvalidArguments args), store)
  | "SET" =>
    if argsLen ≠ 2 then (Except.error (MiniRedisError.InvalidArguments args), store)
    else
      match key, value with
      | some k, some v => (Except.ok "OK", store.set k v)
      | some _, none => (Except.error (MiniRedisError.InvalidArguments args), store)
      | none, _ => (Except.error (MiniRedisError.InvalidArguments args), store)
  | "DEL" =>
    if argsLen ≠ 1 then (Except.error (MiniRedisError.InvalidArguments args), store)
    else
      match key with
      | some k => (Except.ok "OK", store.del k)
      | none => (Except.error (MiniRedisError.InvalidArguments args), store)
  | _ => (Except.error (MiniRedisError.InvalidCommand command), store)

/-- The response text written back by handle_client: the Ok payload, or
the Display rendering of the error (e.to_string()). -/
def renderOutput : Except MiniRedisError String → String
  | Except.ok response => response
  | Except.error e => fmtError e

/-- Server::handle_client: read lines until the zero-length read (the end
of the list), skip lines that parse to no command, otherwise dispatch and
write the response followed by a newline. The zero-length read breaks the
loop and returns Ok. Stream read/write failures cannot arise for a fully
given list of lines, so the Except error branch is never taken. -/
def handleClient (store : KVStore) : List String → Except MiniRedisError (KVStore × List String)
  | [] => Except.ok (store, [])
  | line :: rest =>
    match parseCommand line with
    | none => handleClient store rest
    | some (command, args) =>
      let r := handleCommand command args store
      match handleClient r.2 rest with
      | Except.ok (st, outs) => Except.ok (st, (renderOutput r.1 ++ "\n") :: outs)
      | Except.error e => Except.error e

/-- The accept loop of Server::run over a finite prefix of
listener.incoming(): each item is either an accepted connection or an
accept failure. An accepted connection is spawned (collected, in order);
the source maps an accept failure to StreamNotConnected and propagates it
out of run with the question-mark operator, which ends the loop. Returns
the connections actually handled and the outcome of run. -/
def runIncoming (address : String) : List (Except Unit Nat) → List Nat × Except MiniRedisError Unit
  | [] => ([], Except.ok ())
  | Except.error _ :: _ => ([], Except.error (MiniRedisError.StreamNotConnected address))
  | Except.ok conn :: rest =>
    let r := runIncoming address rest
    (conn :: r.1, r.2)

/-- What one iteration of Client::run does with the string returned by
read_input (the raw line from read_line, trailing newline included; the
empty string only at end of input): skip if empty, break if it equals
the five characters of quit exactly, otherwise send_input writes the
input bytes followed by one extra newline byte. -/
inductive ClientAction : Type
  | skipInput : ClientAction
  | exitLoop : ClientAction
  | send : String → ClientAction
  deriving DecidableEq, Repr

/-- The branch structure of the body of the loop in Client::run. -/
def clientHandleInput (input : String) : ClientAction :=
  if input.isEmpty then ClientAction.skipInput
  else if input = "quit" then ClientAction.exitLoop
  else ClientAction.send (input ++ "\n")

/-- A token in progress is never dropped: splitWsAux with a nonempty
current word always produces at least one token. -/
theorem splitWsAux_ne_nil (cs : List Char) :
    ∀ cur : List Char, cur ≠ [] → splitWsAux cur cs ≠ [] := by
  induction cs with
  | nil =>
    intro cur hcur
    cases cur with
    | nil => exact absurd rfl hcur
    | cons a l => simp [splitWsAux]
  | cons c cs ih =>
    intro cur hcur
    cases hw : c.isWhitespace with
    | true =>
      cases cur with
      | nil => exact absurd rfl hcur
      | cons a l => simp [splitWsAux, hw]
    | false =>
      simpa [splitWsAux, hw] using ih (c :: cur) (by simp)

/-- splitWsAux starting with no word in progress yields no token exactly
when every character is whitespace. -/
theorem splitWsAux_nil_iff (cs : List Char) :
    splitWsAux [] cs = [] ↔ ∀ c ∈ cs, c.isWhitespace = true := by
  induction cs with
  | nil => simp [splitWsAux]
  | cons c cs ih =>
    cases hw : c.isWhitespace with
    | true => simpa [splitWsAux, hw] using ih
    | false =>
      simp only [splitWsAux, hw]
      constructor
      · intro h
        exact absurd h (splitWsAux_ne_nil cs [c] (by simp))
      · intro h
        have := h c (by simp)
        rw [hw] at this
        exact absurd this (by simp)

/-- C5: the parser splits the line on runs of whitespace; it produces no
command exactly when the line is empty or all whitespace, and otherwise
the command is the first token upper-cased and the arguments are the
remaining tokens in order. -/
theorem parse_command_spec (line : String) :
    (parseCommand line = none ↔ ∀ c ∈ line.data, c.isWhitespace = true) ∧
    (∀ command args, parseCommand line = some (command, args) →
      ∃ first rest, splitWhitespace line = first :: rest ∧
        command = toUppercase first ∧ args = rest) := by
  constructor
  · have hnone : parseCommand line = none ↔ splitWhitespace line = [] := by
      unfold parseCommand
      rcases h : splitWhitespace line with _ | ⟨t, ts⟩ <;> simp
    exact hnone.trans (splitWsAux_nil_iff line.data)
  · intro command args hp
    unfold parseCommand at hp
    rcases h : splitWhitespace line with _ | ⟨t, ts⟩
    · rw [h] at hp
      exact absurd hp (by simp)
    · rw [h] at hp
      simp only [Option.some.injEq, Prod.mk.injEq] at hp
      exact ⟨t, ts, rfl, hp.1.symm, hp.2.symm⟩

theorem parse_command_spec_witness :
    (parseCommand "get mykey" = some ("GET", ["mykey"])) ∧
    (∃ first rest, splitWhitespace "get mykey" = first :: rest ∧
      "GET" = toUppercase first ∧ ["mykey"] = rest) :=
  ⟨by decide, (parse_command_spec "get mykey").2 "GET" ["mykey"] (by decide)⟩

/-- C1: SET with exactly two arguments responds OK and stores the value;
a following GET on the same key returns it, overwriting any earlier
value, and after two SETs on the same key GET returns the second value. -/
theorem set_then_get_spec (st : KVStore) (k v v1 v2 : String) :
    handleCommand "SET" [k, v] st = (Except.ok "OK", st.set k v) ∧
    (handleCommand "GET" [k] (st.set k v)).1 = Except.ok v ∧
    (handleCommand "GET" [k] ((st.set k v1).set k v2)).1 = Except.ok v2 := by
  refine ⟨?_, ?_, ?_⟩ <;> simp [handleCommand, KVStore.get, KVStore.set]

/-- C2: GET with exactly one argument returns the stored value when the
key is present and the literal text nil when it is absent; on the fresh
store every GET returns nil. -/
theorem get_dispatch_spec (st : KVStore) (k : String) :
    (∀ v, st.get k = some v → handleCommand "GET" [k] st = (Except.ok v, st)) ∧
    (st.get k = none → handleCommand "GET" [k] st = (Except.ok "nil", st)) ∧
    handleCommand "GET" [k] KVStore.new = (Except.ok "nil", KVStore.new) := by
  refine ⟨?_, ?_, ?_⟩
  · intro v hv
    simp [handleCommand, hv]
  · intro hv
    simp [handleCommand, hv]
  · simp [handleCommand, KVStore.get, KVStore.new]

theorem get_dispatch_spec_witness :
    ((KVStore.new.set "a" "1").get "a" = some "1" ∧
      handleCommand "GET" ["a"] (KVStore.new.set "a" "1") =
        (Except.ok "1", KVStore.new.set "a" "1")) ∧
    (KVStore.new.get "missing" = none ∧
      handleCommand "GET" ["missing"] KVStore.new = (Except.ok "nil", KVStore.new)) :=
  ⟨⟨by decide, (get_dispatch_spec (KVStore.new.set "a" "1") "a").1 "1" (by decide)⟩,
   ⟨rfl, (get_dispatch_spec KVStore.new "missing").2.1 rfl⟩⟩

/-- C3: DEL with exactly one argument responds OK whether or not the key
was present, and afterwards the key is absent, so GET returns nil. -/
theorem del_dispatch_spec (st : KVStore) (k : String) :
    handleCommand "DEL" [k] st = (Except.ok "OK", st.del k) ∧
    (handleCommand "GET" [k] (st.del k)).1 = Except.ok "nil" ∧
    (st.del k).get k = none := by
  refine ⟨?_, ?_, ?_⟩ <;> simp [handleCommand, KVStore.get, KVStore.del]

/-- C4: a wrong argument count for GET, SET or DEL yields an
InvalidArguments error response with the store unchanged, and any other
command name yields an InvalidCommand error whose rendered message
contains that command name. -/
theorem dispatch_errors_spec (st : KVStore) (args : List String) (command : String) :
    (args.length ≠ 1 →
      handleCommand "GET" args st = (Except.error (MiniRedisError.InvalidArguments args), st)) ∧
    (args.length ≠ 2 →
      handleCommand "SET" args st = (Except.error (MiniRedisError.InvalidArguments args), st)) ∧
    (args.length ≠ 1 →
      handleCommand "DEL" args st = (Except.error (MiniRedisError.InvalidArguments args), st)) ∧
    (command ≠ "GET" → command ≠ "SET" → command ≠ "DEL" →
      handleCommand command args st = (Except.error (MiniRedisError.InvalidCommand command), st) ∧
      ∃ pre post, fmtError (MiniRedisError.InvalidCommand command) = pre ++ command ++ post) := by
  refine ⟨?_, ?_, ?_, ?_⟩
  · intro h
    simp [handleCommand, h]
  · intro h
    simp [handleCommand, h]
  · intro h
    simp [handleCommand, h]
  · intro h1 h2 h3
    constructor
    · unfold handleCommand
      split
      · exact absurd rfl h1
      · exact absurd rfl h2
      · exact absurd rfl h3
      · rfl
    · exact ⟨"Invalid command: ", ". Run \x27miniredis --help\x27 for more information.", rfl⟩

theorem dispatch_errors_spec_witness :
    ((["a", "b"] : List String).length ≠ 1 ∧
      handleCommand "GET" ["a", "b"] KVStore.new =
        (Except.error (MiniRedisError.InvalidArguments ["a", "b"]), KVStore.new)) ∧
    ("FOO" ≠ "GET" ∧
      handleCommand "FOO" ["x"] KVStore.new =
        (Except.error (MiniRedisError.InvalidCommand "FOO"), KVStore.new) ∧
      ∃ pre post, fmtError (MiniRedisError.InvalidCommand "FOO") = pre ++ "FOO" ++ post) :=
  ⟨⟨by decide, (dispatch_errors_spec KVStore.new ["a", "b"] "FOO").1 (by decide)⟩,
   ⟨by decide,
    (dispatch_errors_spec KVStore.new ["x"] "FOO").2.2.2 (by decide) (by decide) (by decide)⟩⟩

/-- Any dispatch that produces an error leaves the store unchanged. -/
theorem handleCommand_error_frame (command : String) (args : List String)
    (st : KVStore) (e : MiniRedisError)
    (h : (handleCommand command args st).1 = Except.error e) :
    (handleCommand command args st).2 = st := by
  rcases hc : handleCommand command args st with ⟨r, s⟩
  rw [hc] at h
  simp only at h ⊢
  subst h
  unfold handleCommand at hc
  dsimp only at hc
  repeat' split at hc
  all_goals
    first
      | (simp only [Prod.mk.injEq] at hc; exact hc.2.symm)
      | (exact absurd hc (by simp))

/-- C8: GET never mutates the store; an error dispatch leaves the store
unchanged; and SET or DEL changes at most the binding of its own key. -/
theorem frame_spec (st : KVStore) :
    (∀ args, (handleCommand "GET" args st).2 = st) ∧
    (∀ command args e, (handleCommand command args st).1 = Except.error e →
      (handleCommand command args st).2 = st) ∧
    (∀ k v k2, k2 ≠ k → (st.set k v).get k2 = st.get k2) ∧
    (∀ k k2, k2 ≠ k → (st.del k).get k2 = st.get k2) := by
  refine ⟨?_, ?_, ?_, ?_⟩
  · intro args
    unfold handleCommand
    dsimp only
    repeat' split
    all_goals first
      | rfl
      | simp_all
  · intro command args e h
    exact handleCommand_error_frame command args st e h
  · intro k v k2 h
    simp [KVStore.set, KVStore.get, h]
  · intro k k2 h
    simp [KVStore.del, KVStore.get, h]

theorem frame_spec_witness :
    (("a" : String) ≠ "b" ∧
      ((KVStore.new.set "a" "1").set "b" "2").get "a" = (KVStore.new.set "a" "1").get "a") ∧
    ((handleCommand "SET" ["k"] KVStore.new).1 =
        Except.error (MiniRedisError.InvalidArguments ["k"]) ∧
      (handleCommand "SET" ["k"] KVStore.new).2 = KVStore.new) :=
  ⟨⟨by decide, (frame_spec (KVStore.new.set "a" "1")).2.2.1 "b" "2" "a" (by decide)⟩,
   ⟨rfl,
    (frame_spec KVStore.new).2.1 "SET" ["k"] (MiniRedisError.InvalidArguments ["k"]) rfl⟩⟩

/-- handle_client always terminates with Ok on a fully delivered stream,
emitting exactly one newline-terminated response per line that parses to
a command. -/
theorem handleClient_ok (lines : List String) : ∀ st : KVStore,
    ∃ st2 outs, handleClient st lines = Except.ok (st2, outs) ∧
      outs.length = (lines.filterMap parseCommand).length ∧
      ∀ o ∈ outs, ∃ s, o = s ++ "\n" := by
  induction lines with
  | nil =>
    intro st
    exact ⟨st, [], rfl, by simp, by simp⟩
  | cons line rest ih =>
    intro st
    rcases hp : parseCommand line with _ | ⟨command, args⟩
    · obtain ⟨st2, outs, heq, hlen, hend⟩ := ih st
      refine ⟨st2, outs, ?_, ?_, hend⟩
      · simp [handleClient, hp, heq]
      · simp [List.filterMap_cons, hp, hlen]
    · obtain ⟨st2, outs, heq, hlen, hend⟩ := ih (handleCommand command args st).2
      refine ⟨st2, (renderOutput (handleCommand command args st).1 ++ "\n") :: outs, ?_, ?_, ?_⟩
      · simp [handleClient, hp, heq]
      · simp [List.filterMap_cons, hp, hlen]
      · intro o ho
        rcases List.mem_cons.1 ho with h | h
        · exact ⟨renderOutput (handleCommand command args st).1, h⟩
        · exact hend o h

/-- C7: the handler skips a line that parses to no command (no response),
writes exactly one newline-terminated response per remaining line in
order, and ends with success at the zero-length read. -/
theorem handle_client_spec (store : KVStore) (lines : List String) :
    handleClient store [] = Except.ok (store, []) ∧
    (∀ line rest, parseCommand line = none →
      handleClient store (line :: rest) = handleClient store rest) ∧
    (∀ line rest command args, parseCommand line = some (command, args) →
      ∃ st2 outs, handleClient store (line :: rest) =
        Except.ok (st2, (renderOutput (handleCommand command args store).1 ++ "\n") :: outs)) ∧
    (∃ st2 outs, handleClient store lines = Except.ok (st2, outs) ∧
      outs.length = (lines.filterMap parseCommand).length ∧
      ∀ o ∈ outs, ∃ s, o = s ++ "\n") := by
  refine ⟨rfl, ?_, ?_, handleClient_ok lines store⟩
  · intro line rest hp
    simp [handleClient, hp]
  · intro line rest command args hp
    obtain ⟨st2, outs, heq, hlen, hend⟩ := handleClient_ok rest (handleCommand command args store).2
    refine ⟨st2, outs, ?_⟩
    simp [handleClient, hp, heq]

theorem handle_client_spec_witness :
    (parseCommand "   " = none ∧
      handleClient KVStore.new ["   ", "get a"] = handleClient KVStore.new ["get a"]) ∧
    (parseCommand "get a" = some ("GET", ["a"]) ∧
      ∃ st2 outs, handleClient KVStore.new ["get a"] =
        Except.ok (st2,
          (renderOutput (handleCommand "GET" ["a"] KVStore.new).1 ++ "\n") :: outs)) :=
  ⟨⟨by decide, (handle_client_spec KVStore.new []).2.1 "   " ["get a"] (by decide)⟩,
   ⟨by decide, (handle_client_spec KVStore.new []).2.2.1 "get a" [] "GET" ["a"] (by decide)⟩⟩

/-- C10: the store compares keys by exact string equality, so a SET on
one key never touches a key spelled with different case, and the parser
leaves every argument token exactly as typed (only the first token is
upper-cased). -/
theorem case_sensitive_spec (st : KVStore) (k kOther v : String) (h : kOther ≠ k) :
    (KVStore.new.set k v).get kOther = none ∧
    (st.set k v).get kOther = st.get kOther ∧
    (∀ line command args, parseCommand line = some (command, args) →
      ∃ first, splitWhitespace line = first :: args ∧ command = toUppercase first) := by
  refine ⟨?_, ?_, ?_⟩
  · simp [KVStore.set, KVStore.get, KVStore.new, h]
  · simp [KVStore.set, KVStore.get, h]
  · intro line command args hp
    unfold parseCommand at hp
    rcases hs : splitWhitespace line with _ | ⟨t, ts⟩
    · rw [hs] at hp
      exact absurd hp (by simp)
    · rw [hs] at hp
      simp only [Option.some.injEq, Prod.mk.injEq] at hp
      exact ⟨t, by rw [hp.2], hp.1.symm⟩

theorem case_sensitive_spec_witness :
    (("KEY" : String) ≠ "key") ∧
    (KVStore.new.set "key" "v").get "KEY" = none ∧
    parseCommand "set Key V1" = some ("SET", ["Key", "V1"]) :=
  ⟨by decide,
   (case_sensitive_spec KVStore.new "key" "KEY" "v" (by decide)).1,
   by decide⟩

/-- C6: contrary to the claim, an accept failure ends the accept loop:
run maps it to StreamNotConnected and propagates it, so a connection
arriving after the failure is never handled. -/
theorem run_accept_error_stops_loop :
    runIncoming "127.0.0.1:6379" [Except.ok 1, Except.error (), Except.ok 2] =
      ([1], Except.error (MiniRedisError.StreamNotConnected "127.0.0.1:6379")) ∧
    2 ∉ (runIncoming "127.0.0.1:6379" [Except.ok 1, Except.error (), Except.ok 2]).1 :=
  ⟨rfl, by decide⟩

/-- C9: contrary to the claim, the line the user enters as quit reaches
the loop as the five characters plus the newline kept by read_line, so
it is not equal to the quit literal: the client sends it to the server
(with one more newline appended) instead of exiting. -/
theorem quit_line_is_sent :
    clientHandleInput "quit\n" = ClientAction.send "quit\n\n" ∧
    clientHandleInput "quit\n" ≠ ClientAction.exitLoop :=
  ⟨rfl, by decide⟩
